import Mathlib

/-!
Verification of the H2Integrate / GreenHEART model-construction and
component-compute layer.

The definitions below are shallow embeddings of the Python sources:

* `HOPPCompute` embeds `HOPPComponent.compute`
  (h2integrate/converters/hopp/hopp_wrapper.py).  The external simulation
  (`setup_hopp` / `run_hopp`) is an abstract parameter `sim`; the MD5 digest is
  an abstract parameter `md5`; the file system holding the cache directory is a
  map from file names to optional cached blobs.
* `CablePerformanceCompute` / `PipePerformanceCompute` embed the transporter
  `compute` methods (h2integrate/transporters/cable.py, pipe.py).
* `collectCustomModels`, `createTechnologyModels`, `createFinancialModel` and
  `connectTechnologies` embed the corresponding methods of `H2IntegrateModel`
  (h2integrate/core/h2integrate_model.py); Python exceptions become values of
  `PyError` in an `Except` monad, and `h2IntegrateInit` sequences them in the
  constructor order.
* `ammoniaSynLoopCompute` embeds `AmmoniaSynLoopPerformanceModel.compute`
  (h2integrate/converters/ammonia/ammonia_synloop.py) over exact rationals.
-/

/-- Values appearing in HOPP result dictionaries: scalars, hourly arrays, or
nested dictionaries (such as `annual_energies`). -/
inductive RVal where
  | num : ℚ → RVal
  | arr : List ℚ → RVal
  | dict : List (String × RVal) → RVal

/-- A cached result blob: the dictionary `subset_of_hopp_results` that is
pickled to / unpickled from a cache file. -/
abbrev CacheBlob := List (String × RVal)

/-- hopp_wrapper.py lines 154-161: the keys of the HOPP results that are
extracted and cached. -/
def keys_of_interest : List String :=
  ["percent_load_missed", "curtailment_percent",
   "combined_hybrid_power_production_hopp", "annual_energies", "capex", "opex"]

/-- hopp_wrapper.py lines 107-110: `self.cache` is the `cache` entry of
`simulation_options` when present, and `True` otherwise. -/
def cacheOption (simulation_options : List (String × Bool)) : Bool :=
  match simulation_options.lookup "cache" with
  | some b => b
  | none => true

/-- The component inputs of `HOPPComponent` (hopp_wrapper.py lines 118-140). -/
structure HOPPInputs where
  wind_turbine_rating_kw : ℚ
  pv_capacity_kw : ℚ
  battery_capacity_kw : ℚ
  battery_capacity_kwh : ℚ
deriving DecidableEq

/-- The component outputs of `HOPPComponent` (hopp_wrapper.py lines 143-150).
Each field holds the looked-up dictionary value (`none` models a `KeyError`). -/
structure HOPPOutputs where
  percent_load_missed : Option RVal
  curtailment_percent : Option RVal
  aep : Option RVal
  electricity_out : Option RVal
  CapEx : Option RVal
  OpEx : Option RVal

/-- `subset["annual_energies"]["hybrid"]` (hopp_wrapper.py line 211). -/
def lookupHybrid : Option RVal → Option RVal
  | some (RVal.dict d) => d.lookup "hybrid"
  | _ => none

/-- hopp_wrapper.py lines 209-214: the output assignments from
`subset_of_hopp_results`. -/
def setOutputs (blob : CacheBlob) : HOPPOutputs :=
  { percent_load_missed := blob.lookup "percent_load_missed"
    curtailment_percent := blob.lookup "curtailment_percent"
    aep := lookupHybrid (blob.lookup "annual_energies")
    electricity_out := blob.lookup "combined_hybrid_power_production_hopp"
    CapEx := blob.lookup "capex"
    OpEx := blob.lookup "opex" }

/-- The observable effect of one call to `HOPPComponent.compute`: the subset
dictionary it ends up holding, the outputs it sets, the file system after the
call, and whether the external simulation was invoked. -/
structure HOPPComputeResult where
  subset_of_hopp_results : CacheBlob
  outputs : HOPPOutputs
  fs : String → Option CacheBlob
  simRan : Bool

/-- Shallow embedding of `HOPPComponent.compute` (hopp_wrapper.py lines
152-214).

* `md5` abstracts `hashlib.md5(...).hexdigest()`;
* `configStr` is `str(tech_config["performance_model"]["config"])` and
  `plantLifeStr` is `str(plant_config["plant"]["plant_life"])`;
* `cache` is `self.cache` as set in `setup`;
* `fs` maps file names to the blobs stored in them (`none` = file absent);
* `sim` abstracts `setup_hopp` followed by `run_hopp`, returning the full HOPP
  results dictionary as a function from keys to values.  It receives the
  component inputs, exactly as lines 187-199 pass them.

Line 165-168 hashes the concatenation of the two encoded strings; lines
170-174 only create the cache directory, which does not affect the map from
file names to blobs.  The `dill.load` on a hit (line 181) and the `dill.dump`
on a miss with caching enabled (lines 203-206) act on `fs`. -/
def HOPPCompute (md5 : String → String) (configStr plantLifeStr : String)
    (cache : Bool) (fs : String → Option CacheBlob)
    (sim : HOPPInputs → String → RVal) (inputs : HOPPInputs) : HOPPComputeResult :=
  let config_hash := md5 (configStr ++ plantLifeStr)
  let cache_file := "cache/" ++ config_hash ++ ".pkl"
  match cache, fs cache_file with
  | true, some blob =>
      { subset_of_hopp_results := blob
        outputs := setOutputs blob
        fs := fs
        simRan := false }
  | c, _ =>
      let results := sim inputs
      let subset := keys_of_interest.map (fun k => (k, results k))
      { subset_of_hopp_results := subset
        outputs := setOutputs subset
        fs := if c then (fun p => if p = cache_file then some subset else fs p) else fs
        simRan := true }

/-- transporters/cable.py lines 25-27: `outputs["electricity_out"] =
inputs["electricity_in"]`. -/
def CablePerformanceCompute (electricity_in : List ℚ) : List ℚ :=
  electricity_in

/-- transporters/pipe.py lines 25-27: `outputs["hydrogen_out"] =
inputs["hydrogen_in"]`. -/
def PipePerformanceCompute (hydrogen_in : List ℚ) : List ℚ :=
  hydrogen_in

/-- One model entry of a technology configuration: the dictionary stored under
`performance_model`, `cost_model`, `financial_model` or `control_model`.
Absent dictionary keys are `none`. -/
structure ModelEntry where
  model : Option String
  model_class_name : Option String
  model_location : Option String
  group : Option String
deriving DecidableEq

/-- One technology configuration: which of the four model dictionaries are
present (`none` = key absent). -/
structure TechConfig where
  performance_model : Option ModelEntry
  cost_model : Option ModelEntry
  financial_model : Option ModelEntry
  control_model : Option ModelEntry
deriving DecidableEq

/-- Dictionary access `tech_config[model_type]` for the model-type strings the
source iterates over. -/
def TechConfig.getModelType (cfg : TechConfig) : String → Option ModelEntry
  | "performance_model" => cfg.performance_model
  | "cost_model" => cfg.cost_model
  | "financial_model" => cfg.financial_model
  | "control_model" => cfg.control_model
  | _ => none

/-- The Python exceptions raised by the model-construction code. -/
inductive PyError where
  | valueError (msg : String)
  | fileNotFoundError (msg : String)
  | keyError (key : String)
  | exception (msg : String)
deriving DecidableEq

/-- Python truthiness of an optional string: `None` and `""` are falsy. -/
def truthyOptStr : Option String → Bool
  | none => false
  | some s => s ≠ ""

/-- `str(x)` for an optional string, as Python renders it in an f-string. -/
def pyStrOpt : Option String → String
  | none => "None"
  | some s => s

/-- h2integrate_model.py lines 93-96: the missing-fields message. -/
def missingMsg (tech_name model_type : String) : String :=
  "Custom " ++ model_type ++ " for " ++ tech_name ++
    " must specify \x27model_class_name\x27 and \x27model_location\x27."

/-- h2integrate_model.py lines 102-104: the missing-location message. -/
def fnfMsg (model_path : String) : String :=
  "Custom model location " ++ model_path ++ " does not exist."

/-- h2integrate_model.py lines 120-127: the name-collision message. -/
def collisionMsg (model_name : Option String) : String :=
  "Custom model_class_name or model_location specified for \x27" ++
    pyStrOpt model_name ++ "\x27, but \x27" ++ pyStrOpt model_name ++
    "\x27 is a built-in H2Integrate model. Using built-in model instead " ++
    "is not allowed. If you want to use a custom model, please rename it " ++
    "in your configuration."

/-- The loop body of `collect_custom_models` for one present model entry
(h2integrate_model.py lines 87-128).  `pathExists` abstracts
`Path.exists`; `parentDir` is `self.tech_config_path.parent`; the supported
models dictionary is tracked by its key set.  The dynamic import (lines
107-110) is modelled as always succeeding, so a successful custom entry adds
its model name to the supported set. -/
def checkModelEntry (pathExists : String → Bool) (parentDir : String)
    (supported : List String) (tech_name model_type : String)
    (entry : ModelEntry) : Except PyError (List String) :=
  match entry.model with
  | some m =>
    if supported.contains m then
      if entry.model_class_name != none || entry.model_location != none then
        Except.error (PyError.valueError (collisionMsg (some m)))
      else
        Except.ok supported
    else
      if !(truthyOptStr entry.model_class_name) || !(truthyOptStr entry.model_location) then
        Except.error (PyError.valueError (missingMsg tech_name model_type))
      else
        let model_path := parentDir ++ "/" ++ pyStrOpt entry.model_location
        if !(pathExists model_path) then
          Except.error (PyError.fileNotFoundError (fnfMsg model_path))
        else
          Except.ok (supported ++ [m])
  | none =>
    if entry.model_class_name != none || entry.model_location != none then
      Except.error (PyError.valueError (collisionMsg none))
    else
      Except.ok supported

/-- h2integrate_model.py line 85: the model types scanned by
`collect_custom_models`. -/
def customModelTypes : List String :=
  ["performance_model", "cost_model", "financial_model"]

/-- The inner loop of `collect_custom_models` over the model types of one
technology (h2integrate_model.py lines 85-128). -/
def collectTechCustomModels (pathExists : String → Bool) (parentDir : String)
    (supported : List String) (tech_name : String) (cfg : TechConfig) :
    Except PyError (List String) :=
  customModelTypes.foldlM
    (fun sup mt =>
      match cfg.getModelType mt with
      | some entry => checkModelEntry pathExists parentDir sup tech_name mt entry
      | none => Except.ok sup)
    supported

/-- `H2IntegrateModel.collect_custom_models` (h2integrate_model.py lines
76-128): fold the per-technology check over the ordered technology list. -/
def collectCustomModels (pathExists : String → Bool) (parentDir : String)
    (supported : List String) (techs : List (String × TechConfig)) :
    Except PyError (List String) :=
  techs.foldlM
    (fun sup tc => collectTechCustomModels pathExists parentDir sup tc.1 tc.2)
    supported

/-- A model entry naming a built-in supported model with neither
`model_class_name` nor `model_location` set: `collect_custom_models` passes
over it without error and without changing the supported models. -/
def benignEntry (supported : List String) (e : ModelEntry) : Prop :=
  ∃ m, e.model = some m ∧ supported.contains m = true ∧
    e.model_class_name = none ∧ e.model_location = none

/-- An optional model slot that is absent, or holds a benign built-in
entry. -/
def benignOpt (supported : List String) : Option ModelEntry → Prop
  | none => True
  | some e => benignEntry supported e

/-- h2integrate_model.py line 188: the models that provide performance and
cost in a single component. -/
def combined_performance_and_cost_models : List String :=
  ["hopp", "h2_storage", "wombat"]

/-- Python substring containment `pat in s` for strings: some suffix of `s`
starts with `pat`. -/
def strContains (s pat : String) : Bool :=
  (List.range (s.toList.length + 1)).any
    (fun i => pat.toList.isPrefixOf (s.toList.drop i))

/-- `H2IntegrateModel._process_model` (h2integrate_model.py lines 256-265):
`individual_tech_config[model_type]["model"]` raises `KeyError` when the
`model` key is absent, and `self.supported_models[model_name]` raises
`KeyError` when the name is not supported; otherwise a subsystem named after
the model is added. -/
def processModel (supported : List String) (entry : ModelEntry) :
    Except PyError String :=
  match entry.model with
  | none => Except.error (PyError.keyError "model")
  | some m =>
    if supported.contains m then Except.ok m
    else Except.error (PyError.keyError m)

/-- The combined performance-and-cost branch of `create_technology_models`
(h2integrate_model.py lines 204-225): one subsystem named after the
technology, plus a control-model subsystem when `control_model` is present. -/
def createTechCombined (supported : List String) (tech_name p : String)
    (cfg : TechConfig) : Except PyError (List String) :=
  if supported.contains p then
    match cfg.control_model with
    | some ce => (processModel supported ce).map (fun n => [tech_name, n])
    | none => Except.ok [tech_name]
  else Except.error (PyError.keyError p)

/-- h2integrate_model.py line 229: the model types of the standard loop. -/
def standardModelTypes : List String :=
  ["performance_model", "control_model", "cost_model"]

/-- The standard branch of `create_technology_models` (h2integrate_model.py
lines 229-254): loop over performance, control and cost models, raising when
`performance_model` is absent, then process the financial model when it is
present and has a `model` key. -/
def createTechStandard (supported : List String) (tech_name : String)
    (cfg : TechConfig) : Except PyError (List String) := do
  let comps ← standardModelTypes.foldlM
    (fun acc mt =>
      match cfg.getModelType mt with
      | some entry => (processModel supported entry).map (fun n => acc ++ [n])
      | none =>
        if mt == "performance_model" then
          Except.error
            (PyError.exception "Model definition requires \x27performance_model\x27.")
        else Except.ok acc)
    []
  match cfg.financial_model with
  | some fe =>
    match fe.model with
    | some fm =>
      if supported.contains fm then Except.ok (comps ++ [tech_name ++ "_financial"])
      else Except.error (PyError.keyError fm)
    | none => Except.ok comps
  | none => Except.ok comps

/-- The per-technology body of `create_technology_models`
(h2integrate_model.py lines 191-254).  A technology whose name contains
`feedstocks` becomes a `FeedstockComponent`; otherwise the combined branch is
taken when the performance model name is truthy, equals the cost model name
and is one of the combined models, and the standard branch is taken
otherwise. -/
def createTechModelsForTech (supported : List String) (tech_name : String)
    (cfg : TechConfig) : Except PyError (List String) :=
  if strContains tech_name "feedstocks" then Except.ok [tech_name]
  else
    match cfg.performance_model.bind (fun e => e.model) with
    | some p =>
      if (p != "") && (cfg.cost_model.bind (fun e => e.model) == some p) &&
          combined_performance_and_cost_models.contains p then
        createTechCombined supported tech_name p cfg
      else createTechStandard supported tech_name cfg
    | none => createTechStandard supported tech_name cfg

/-- `H2IntegrateModel.create_technology_models` (h2integrate_model.py lines
178-254), returning the list of subsystem names created. -/
def createTechnologyModels (supported : List String)
    (techs : List (String × TechConfig)) : Except PyError (List String) :=
  techs.foldlM
    (fun acc tc => (createTechModelsForTech supported tc.1 tc.2).map
      (fun cs => acc ++ cs))
    []

/-- h2integrate_model.py supported_models.py line 81: the technologies that
produce electricity. -/
def electricity_producing_techs : List String :=
  ["wind", "solar", "river", "hopp"]

/-- Ordered-dictionary insertion used by `create_financial_model`: append the
technology to its group when the group id already exists, and append a new
group at the end otherwise. -/
def addToGroup : List (String × List (String × TechConfig)) → String →
    (String × TechConfig) → List (String × List (String × TechConfig))
  | [], gid, tc => [(gid, [tc])]
  | (g, ts) :: rest, gid, tc =>
    if g = gid then (g, ts ++ [tc]) :: rest
    else (g, ts) :: addToGroup rest gid tc

/-- One step of the loop on h2integrate_model.py lines 282-287: a technology
that declares a `financial_model` `group` id is inserted into that group, any
other technology leaves the groups unchanged. -/
def declaredGroupsStep (groups : List (String × List (String × TechConfig)))
    (tc : String × TechConfig) : List (String × List (String × TechConfig)) :=
  match tc.2.financial_model.bind (fun e => e.group) with
  | some gid => addToGroup groups gid tc
  | none => groups

/-- h2integrate_model.py lines 282-287: collect the technologies that declare
a `financial_model` `group` id into ordered groups. -/
def declaredGroups (techs : List (String × TechConfig)) :
    List (String × List (String × TechConfig)) :=
  techs.foldl declaredGroupsStep []

/-- h2integrate_model.py lines 279-291: the financial groups, defaulting to a
single group keyed `"1"` holding all technologies when none are declared. -/
def financialGroupsOf (techs : List (String × TechConfig)) :
    List (String × List (String × TechConfig)) :=
  let declared := declaredGroups techs
  if declared.isEmpty then [("1", techs)] else declared

/-- Dictionary key membership `name in tech_configs`. -/
def hasTech (ts : List (String × TechConfig)) (name : String) : Bool :=
  ts.any (fun tc => tc.1 = name)

/-- h2integrate_model.py lines 295-311: the commodity types of one financial
group, in the order the source appends them (the loop over
`electricity_producing_techs` is unrolled over its four members `wind`,
`solar`, `river`, `hopp`; the `continue` on line 311 only moves to the next
candidate, so one `electricity` entry is appended per member present). -/
def commodityTypes (ts : List (String × TechConfig)) : List String :=
  (if hasTech ts "steel" then ["steel"] else []) ++
  (if hasTech ts "electrolyzer" then ["hydrogen"] else []) ++
  (if hasTech ts "methanol" then ["methanol"] else []) ++
  (if hasTech ts "ammonia" then ["ammonia"] else []) ++
  (if hasTech ts "geoh2" then ["hydrogen"] else []) ++
  (if hasTech ts "doc" then ["co2"] else []) ++
  (if hasTech ts "wind" then ["electricity"] else []) ++
  (if hasTech ts "solar" then ["electricity"] else []) ++
  (if hasTech ts "river" then ["electricity"] else []) ++
  (if hasTech ts "hopp" then ["electricity"] else [])

/-- h2integrate_model.py lines 313-321: a `financials_group` subsystem is
added for a group unless steel or methanol commodities are present, a `geoh2`
technology is present, or the commodity list is empty. -/
def financialGroupAdded (ts : List (String × TechConfig)) : Bool :=
  !((commodityTypes ts).contains "steel" || (commodityTypes ts).contains "methanol") &&
  !(hasTech ts "geoh2") &&
  !((commodityTypes ts).isEmpty)

/-- `H2IntegrateModel.create_financial_model` (h2integrate_model.py lines
267-350): returns the financial groups and the names of the
`financials_group_{id}` subsystems added to the plant.  When
`finance_parameters` is absent from the plant config the method returns
immediately. -/
def createFinancialModel (hasFinance : Bool)
    (techs : List (String × TechConfig)) :
    List (String × List (String × TechConfig)) × List String :=
  if hasFinance then
    let groups := financialGroupsOf techs
    (groups,
      (groups.filter (fun g => financialGroupAdded g.2)).map
        (fun g => "financials_group_" ++ g.1))
  else ([], [])

/-- h2integrate_model.py lines 423-424: the invalid-interconnection message,
with the Python `repr` of the entry rendered by `toString`. -/
def invalidConnMsg (c : List String) : String :=
  "Invalid connection: " ++ toString c

/-- h2integrate_model.py lines 430-431: the invalid resource-connection
message. -/
def invalidResourceConnMsg (c : List String) : String :=
  "Invalid resource to tech connection: " ++ toString c

/-- The interconnection loop of `connect_technologies` (h2integrate_model.py
lines 359-424), producing the `plant.connect` source/target pairs.  A
four-entry connection instantiates `self.supported_models[transport_type]`
(a `KeyError` when unsupported), connects the source to the transport
component (the `storage` test on line 372 selects between two identical
calls), and connects the transport component to the destination, numbering
`electricity_in` ports for combiner destinations via `combiner_counts`.  A
three-entry connection is wired directly; any other length raises
`ValueError`. -/
def processInterconnections (supported : List String) :
    List (String × Nat) → List (List String) →
    Except PyError (List (String × String))
  | _, [] => Except.ok []
  | counts, c :: rest =>
    match c with
    | [source_tech, dest_tech, transport_item, transport_type] =>
      if supported.contains transport_type then
        let connection_name := source_tech ++ "_to_" ++ dest_tech ++ "_" ++ transport_type
        let first :=
          if strContains source_tech "storage" then
            (source_tech ++ "." ++ transport_item ++ "_out",
             connection_name ++ "." ++ transport_item ++ "_in")
          else
            (source_tech ++ "." ++ transport_item ++ "_out",
             connection_name ++ "." ++ transport_item ++ "_in")
        if strContains dest_tech "combiner" then
          let cnt := match counts.lookup dest_tech with
            | some k => k + 1
            | none => 1
          let second :=
            (connection_name ++ "." ++ transport_item ++ "_out",
             dest_tech ++ ".electricity_in" ++ toString cnt)
          (processInterconnections supported ((dest_tech, cnt) :: counts) rest).map
            (fun cs => first :: second :: cs)
        else
          let second :=
            (connection_name ++ "." ++ transport_item ++ "_out",
             dest_tech ++ "." ++ transport_item ++ "_in")
          (processInterconnections supported counts rest).map
            (fun cs => first :: second :: cs)
      else Except.error (PyError.keyError transport_type)
    | [source_tech, dest_tech, connected_parameter] =>
      (processInterconnections supported counts rest).map
        (fun cs =>
          (source_tech ++ "." ++ connected_parameter,
           dest_tech ++ "." ++ connected_parameter) :: cs)
    | _ => Except.error (PyError.valueError (invalidConnMsg c))

/-- The resource-connection loop of `connect_technologies`
(h2integrate_model.py lines 426-436): each entry must have exactly three
fields and is wired directly. -/
def processResourceConnections :
    List (List String) → Except PyError (List (String × String))
  | [] => Except.ok []
  | c :: rest =>
    match c with
    | [resource_name, tech_name, var_name] =>
      (processResourceConnections rest).map
        (fun cs =>
          (resource_name ++ "." ++ var_name,
           tech_name ++ "." ++ var_name) :: cs)
    | _ => Except.error (PyError.valueError (invalidResourceConnMsg c))

/-- `H2IntegrateModel.connect_technologies` (h2integrate_model.py lines
352-436), restricted to the two validating connection loops; the remaining
financial wiring (lines 440-494) performs no length validation. -/
def connectTechnologies (supported : List String)
    (technology_interconnections resource_to_tech_connections : List (List String)) :
    Except PyError (List (String × String)) := do
  let tis ← processInterconnections supported [] technology_interconnections
  let rs ← processResourceConnections resource_to_tech_connections
  return tis ++ rs

/-- The error-relevant state produced by a successful `H2IntegrateModel`
construction. -/
structure InitResult where
  supported : List String
  techComponents : List String
  financialGroups : List (String × List (String × TechConfig))
  financialSubsystems : List String
  connections : List (String × String)

/-- The `H2IntegrateModel` constructor order (h2integrate_model.py lines
24-60): custom models are collected before any technology model is created,
then technology models, the financial model, and the technology connections
are built.  An exception in an earlier step propagates and prevents every
later step. -/
def h2IntegrateInit (pathExists : String → Bool) (parentDir : String)
    (supported₀ : List String) (techs : List (String × TechConfig))
    (tis rts : List (List String)) (hasFinance : Bool) :
    Except PyError InitResult := do
  let supported ← collectCustomModels pathExists parentDir supported₀ techs
  let techComponents ← createTechnologyModels supported techs
  let fm := createFinancialModel hasFinance techs
  let conns ← connectTechnologies supported tis rts
  return { supported := supported
           techComponents := techComponents
           financialGroups := fm.1
           financialSubsystems := fm.2
           connections := conns }

/-- The elementwise limiting ammonia production
(ammonia_synloop.py lines 110-121): `np.minimum.reduce` of the three
capacity arrays, elementwise. -/
def nh3FromInputs (h2_rate n2_rate energy_demand : ℚ) :
    List ℚ → List ℚ → List ℚ → List ℚ
  | h :: hs, n :: ns, e :: es =>
      min (min (h / h2_rate) (n / n2_rate)) (e / energy_demand) ::
        nh3FromInputs h2_rate n2_rate energy_demand hs ns es
  | _, _, _ => []

/-- The outputs of `AmmoniaSynLoopPerformanceModel.compute`. -/
structure SynLoopOutputs where
  ammonia_out : List ℚ
  hydrogen_out : List ℚ
  nitrogen_out : List ℚ
  heat_out : List ℚ
  total_ammonia_produced : ℚ
deriving DecidableEq

/-- `AmmoniaSynLoopPerformanceModel.compute` (ammonia_synloop.py lines
101-129) over exact rationals: hourly production is the elementwise minimum
of the three capacity arrays, the leftovers subtract the used amounts, and
the total is the sum of hourly production. -/
def ammoniaSynLoopCompute (energy_demand n2_rate h2_rate : ℚ)
    (h2_in n2_in elec_in : List ℚ) : SynLoopOutputs :=
  let nh3_prod := nh3FromInputs h2_rate n2_rate energy_demand h2_in n2_in elec_in
  { ammonia_out := nh3_prod
    hydrogen_out := List.zipWith (fun h p => h - p * h2_rate) h2_in nh3_prod
    nitrogen_out := List.zipWith (fun n p => n - p * n2_rate) n2_in nh3_prod
    heat_out := List.zipWith (fun e p => e - p * energy_demand) elec_in nh3_prod
    total_ammonia_produced := nh3_prod.sum }

/-- C1: For every HOPP component with caching enabled (the simulation options
contain no cache entry, or set it true), `HOPPComponent.compute` derives the
cache key as the MD5 hash of the string form of the performance-model
configuration concatenated with the string form of the plant lifetime, and
whenever the cache file named after that key exists, the outputs are loaded
from that file and the external simulation is not invoked (and the file
system is left untouched). -/
theorem hopp_cache_hit_skips_simulation
    (md5 : String → String) (configStr plantLifeStr : String)
    (opts : List (String × Bool)) (fs : String → Option CacheBlob)
    (sim : HOPPInputs → String → RVal) (inputs : HOPPInputs) (blob : CacheBlob)
    (hcache : cacheOption opts = true)
    (hfile : fs ("cache/" ++ md5 (configStr ++ plantLifeStr) ++ ".pkl") = some blob) :
    (HOPPCompute md5 configStr plantLifeStr (cacheOption opts) fs sim inputs).simRan
        = false ∧
    (HOPPCompute md5 configStr plantLifeStr (cacheOption opts) fs sim inputs).outputs
        = setOutputs blob ∧
    (HOPPCompute md5 configStr plantLifeStr (cacheOption opts) fs sim inputs).fs = fs := by
  rw [hcache]
  refine ⟨?_, ?_, ?_⟩ <;> (simp only [HOPPCompute]; rw [hfile])

theorem hopp_cache_hit_skips_simulation_witness :
    (HOPPCompute (fun _ => "k") "cfg" "30" (cacheOption [])
        (fun _ => some [("capex", RVal.num 5)]) (fun _ _ => RVal.num 0)
        ⟨0, 0, 0, 0⟩).simRan = false ∧
    (HOPPCompute (fun _ => "k") "cfg" "30" (cacheOption [])
        (fun _ => some [("capex", RVal.num 5)]) (fun _ _ => RVal.num 0)
        ⟨0, 0, 0, 0⟩).outputs = setOutputs [("capex", RVal.num 5)] ∧
    (HOPPCompute (fun _ => "k") "cfg" "30" (cacheOption [])
        (fun _ => some [("capex", RVal.num 5)]) (fun _ _ => RVal.num 0)
        ⟨0, 0, 0, 0⟩).fs = (fun _ => some [("capex", RVal.num 5)]) :=
  hopp_cache_hit_skips_simulation (fun _ => "k") "cfg" "30" []
    (fun _ => some [("capex", RVal.num 5)]) (fun _ _ => RVal.num 0)
    ⟨0, 0, 0, 0⟩ [("capex", RVal.num 5)] rfl rfl

/-- C2: `HOPPComponent.compute` runs the external simulation exactly when the
cache file for the computed key is absent or caching is disabled; in that case
it extracts exactly the six keys of interest from the results, and, if caching
is enabled, writes that subset to the cache file and changes no other file;
existing cache entries are never invalidated or overwritten. -/
theorem hopp_cache_miss_runs_simulation
    (md5 : String → String) (configStr plantLifeStr : String) (cache : Bool)
    (fs : String → Option CacheBlob) (sim : HOPPInputs → String → RVal)
    (inputs : HOPPInputs) :
    ((HOPPCompute md5 configStr plantLifeStr cache fs sim inputs).simRan = true ↔
      (cache = false ∨
        fs ("cache/" ++ md5 (configStr ++ plantLifeStr) ++ ".pkl") = none)) ∧
    ((HOPPCompute md5 configStr plantLifeStr cache fs sim inputs).simRan = true →
      (HOPPCompute md5 configStr plantLifeStr cache fs sim inputs).subset_of_hopp_results
          = keys_of_interest.map (fun k => (k, sim inputs k)) ∧
      (cache = true →
        (HOPPCompute md5 configStr plantLifeStr cache fs sim inputs).fs
          = fun p =>
              if p = "cache/" ++ md5 (configStr ++ plantLifeStr) ++ ".pkl" then
                some (keys_of_interest.map (fun k => (k, sim inputs k)))
              else fs p) ∧
      (cache = false →
        (HOPPCompute md5 configStr plantLifeStr cache fs sim inputs).fs = fs)) ∧
    (∀ p b, fs p = some b →
      (HOPPCompute md5 configStr plantLifeStr cache fs sim inputs).fs p = some b) := by
  cases cache with
  | false =>
    simp only [HOPPCompute]
    refine ⟨by simp, by simp, fun p b hb => by simpa⟩
  | true =>
    cases hfs : fs ("cache/" ++ md5 (configStr ++ plantLifeStr) ++ ".pkl") with
    | some blob =>
      simp only [HOPPCompute, hfs]
      refine ⟨by simp, by simp, fun p b hb => hb⟩
    | none =>
      simp only [HOPPCompute, hfs]
      refine ⟨by simp, by simp, fun p b hb => ?_⟩
      simp only [if_true]
      by_cases hp : p = "cache/" ++ md5 (configStr ++ plantLifeStr) ++ ".pkl"
      · rw [hp, hfs] at hb
        exact absurd hb (by simp)
      · simpa [hp] using hb

theorem hopp_cache_miss_runs_simulation_witness :
    ((HOPPCompute (fun _ => "k") "cfg" "30" false (fun _ => none)
        (fun _ _ => RVal.num 0) ⟨0, 0, 0, 0⟩).simRan = true ↔
      (false = false ∨
        (fun _ : String => (none : Option CacheBlob))
          ("cache/" ++ (fun _ : String => "k") ("cfg" ++ "30") ++ ".pkl") = none)) ∧
    ((HOPPCompute (fun _ => "k") "cfg" "30" false (fun _ => none)
        (fun _ _ => RVal.num 0) ⟨0, 0, 0, 0⟩).simRan = true →
      (HOPPCompute (fun _ => "k") "cfg" "30" false (fun _ => none)
        (fun _ _ => RVal.num 0) ⟨0, 0, 0, 0⟩).subset_of_hopp_results
          = keys_of_interest.map (fun k => (k, RVal.num 0)) ∧
      (false = true →
        (HOPPCompute (fun _ => "k") "cfg" "30" false (fun _ => none)
          (fun _ _ => RVal.num 0) ⟨0, 0, 0, 0⟩).fs
          = fun p =>
              if p = "cache/" ++ (fun _ : String => "k") ("cfg" ++ "30") ++ ".pkl" then
                some (keys_of_interest.map (fun k => (k, RVal.num 0)))
              else none) ∧
      (false = false →
        (HOPPCompute (fun _ => "k") "cfg" "30" false (fun _ => none)
          (fun _ _ => RVal.num 0) ⟨0, 0, 0, 0⟩).fs = fun _ => none)) ∧
    (∀ p b, (fun _ : String => (none : Option CacheBlob)) p = some b →
      (HOPPCompute (fun _ => "k") "cfg" "30" false (fun _ => none)
        (fun _ _ => RVal.num 0) ⟨0, 0, 0, 0⟩).fs p = some b) :=
  hopp_cache_miss_runs_simulation (fun _ => "k") "cfg" "30" false (fun _ => none)
    (fun _ _ => RVal.num 0) ⟨0, 0, 0, 0⟩

/-- C3: On a cache hit with caching enabled, the outputs of
`HOPPComponent.compute` do not depend on the component inputs: two executions
sharing the technology and plant configuration (and hence the cache key) but
receiving different turbine, PV and battery ratings produce identical
outputs. -/
theorem hopp_cache_hit_outputs_input_independent
    (md5 : String → String) (configStr plantLifeStr : String)
    (opts : List (String × Bool)) (fs : String → Option CacheBlob)
    (sim : HOPPInputs → String → RVal) (inputs₁ inputs₂ : HOPPInputs)
    (blob : CacheBlob)
    (hcache : cacheOption opts = true)
    (hfile : fs ("cache/" ++ md5 (configStr ++ plantLifeStr) ++ ".pkl") = some blob) :
    (HOPPCompute md5 configStr plantLifeStr (cacheOption opts) fs sim inputs₁).outputs =
    (HOPPCompute md5 configStr plantLifeStr (cacheOption opts) fs sim inputs₂).outputs := by
  rw [hcache]
  simp only [HOPPCompute]
  rw [hfile]

theorem hopp_cache_hit_outputs_input_independent_witness :
    (HOPPCompute (fun _ => "k") "cfg" "30" (cacheOption [("cache", true)])
        (fun _ => some [("opex", RVal.num 7)]) (fun _ _ => RVal.num 0)
        ⟨1, 2, 3, 4⟩).outputs =
    (HOPPCompute (fun _ => "k") "cfg" "30" (cacheOption [("cache", true)])
        (fun _ => some [("opex", RVal.num 7)]) (fun _ _ => RVal.num 0)
        ⟨5, 6, 7, 8⟩).outputs :=
  hopp_cache_hit_outputs_input_independent (fun _ => "k") "cfg" "30"
    [("cache", true)] (fun _ => some [("opex", RVal.num 7)]) (fun _ _ => RVal.num 0)
    ⟨1, 2, 3, 4⟩ ⟨5, 6, 7, 8⟩ [("opex", RVal.num 7)] rfl rfl

/-- C8: The cable and pipe transport components are lossless pass-throughs:
`CablePerformanceModel.compute` returns the electricity input unchanged and
`PipePerformanceModel.compute` returns the hydrogen input unchanged. -/
theorem cable_and_pipe_pass_through (electricity_in hydrogen_in : List ℚ) :
    CablePerformanceCompute electricity_in = electricity_in ∧
    PipePerformanceCompute hydrogen_in = hydrogen_in :=
  ⟨rfl, rfl⟩

theorem except_error_bind {ε α β : Type} (e : ε) (k : α → Except ε β) :
    (Except.error e >>= k) = Except.error e := rfl

theorem except_ok_bind {ε α β : Type} (a : α) (k : α → Except ε β) :
    (Except.ok a >>= k : Except ε β) = k a := rfl

theorem collectTech_perf_error (pe : String → Bool) (pdir : String)
    (sup : List String) (tn : String) (cfg : TechConfig) (e : ModelEntry)
    (err : PyError)
    (hperf : cfg.performance_model = some e)
    (hcheck : checkModelEntry pe pdir sup tn "performance_model" e = Except.error err) :
    collectTechCustomModels pe pdir sup tn cfg = Except.error err := by
  have h1 : cfg.getModelType "performance_model" = some e := hperf
  simp [collectTechCustomModels, customModelTypes, List.foldlM_cons, h1, hcheck,
    except_error_bind]

theorem collectCustomModels_head_error (pe : String → Bool) (pdir : String)
    (sup : List String) (tn : String) (cfg : TechConfig)
    (rest : List (String × TechConfig)) (err : PyError)
    (h : collectTechCustomModels pe pdir sup tn cfg = Except.error err) :
    collectCustomModels pe pdir sup ((tn, cfg) :: rest) = Except.error err := by
  simp [collectCustomModels, List.foldlM_cons, h, except_error_bind]

theorem h2Init_collect_error (pe : String → Bool) (pdir : String)
    (sup : List String) (techs : List (String × TechConfig))
    (tis rts : List (List String)) (hf : Bool) (err : PyError)
    (h : collectCustomModels pe pdir sup techs = Except.error err) :
    h2IntegrateInit pe pdir sup techs tis rts hf = Except.error err := by
  simp [h2IntegrateInit, h, except_error_bind]

theorem createTechnologyModels_head_error (sup : List String) (tn : String)
    (cfg : TechConfig) (rest : List (String × TechConfig)) (err : PyError)
    (h : createTechModelsForTech sup tn cfg = Except.error err) :
    createTechnologyModels sup ((tn, cfg) :: rest) = Except.error err := by
  simp [createTechnologyModels, List.foldlM_cons, h, Except.map, except_error_bind]

theorem checkModelEntry_benign (pe : String → Bool) (pdir : String)
    (sup : List String) (tn mt : String) (e : ModelEntry)
    (hb : benignEntry sup e) :
    checkModelEntry pe pdir sup tn mt e = Except.ok sup := by
  obtain ⟨m, hm, hmem, hcn, hln⟩ := hb
  have hmem2 : m ∈ sup := by simpa using hmem
  unfold checkModelEntry
  rw [hm]
  simp [hmem2, hcn, hln]

/-- C4: If any technology names a built-in supported model in its
`performance_model`, `cost_model` or `financial_model` entry while also
giving `model_class_name` or `model_location`, the per-entry check of
`collect_custom_models` raises the descriptive name-collision `ValueError`
for every model type holding the entry; with such a technology first in the
configuration — the colliding entry sitting in any of the three slots, the
earlier slots being absent or benign built-in entries — `collect_custom_models`
itself raises it, and the `H2IntegrateModel` constructor fails with it before
any technology model is created. -/
theorem builtin_name_collision_raises
    (pe : String → Bool) (pdir : String) (supported : List String)
    (tn m : String) (e : ModelEntry) (cfg : TechConfig)
    (rest : List (String × TechConfig)) (tis rts : List (List String)) (hf : Bool)
    (hm : e.model = some m) (hmem : supported.contains m = true)
    (hspec : e.model_class_name ≠ none ∨ e.model_location ≠ none)
    (hslot : cfg.performance_model = some e ∨
      (benignOpt supported cfg.performance_model ∧ cfg.cost_model = some e) ∨
      (benignOpt supported cfg.performance_model ∧
        benignOpt supported cfg.cost_model ∧ cfg.financial_model = some e)) :
    (∀ mt, checkModelEntry pe pdir supported tn mt e
      = Except.error (PyError.valueError (collisionMsg (some m)))) ∧
    collectCustomModels pe pdir supported ((tn, cfg) :: rest)
      = Except.error (PyError.valueError (collisionMsg (some m))) ∧
    h2IntegrateInit pe pdir supported ((tn, cfg) :: rest) tis rts hf
      = Except.error (PyError.valueError (collisionMsg (some m))) := by
  have hb : (e.model_class_name != none || e.model_location != none) = true := by
    rcases hspec with h | h <;> simp [h]
  have hmem2 : m ∈ supported := by simpa using hmem
  have hcheck : ∀ mt, checkModelEntry pe pdir supported tn mt e
      = Except.error (PyError.valueError (collisionMsg (some m))) := by
    intro mt
    unfold checkModelEntry
    rw [hm]
    simp [hmem2, hb]
  have g1 : cfg.getModelType "performance_model" = cfg.performance_model := rfl
  have g2 : cfg.getModelType "cost_model" = cfg.cost_model := rfl
  have g3 : cfg.getModelType "financial_model" = cfg.financial_model := rfl
  have hfold : collectTechCustomModels pe pdir supported tn cfg
      = Except.error (PyError.valueError (collisionMsg (some m))) := by
    rcases hslot with hperf | ⟨hb1, hcost⟩ | ⟨hb1, hb2, hfin⟩
    · exact collectTech_perf_error pe pdir supported tn cfg e _ hperf (hcheck _)
    · simp only [collectTechCustomModels, customModelTypes, List.foldlM_cons,
        List.foldlM_nil, g1, g2, g3, hcost]
      cases hp : cfg.performance_model with
      | none => simp [except_ok_bind, hcheck "cost_model", except_error_bind]
      | some e₁ =>
        rw [hp] at hb1
        simp [checkModelEntry_benign pe pdir supported tn "performance_model" e₁ hb1,
          except_ok_bind, hcheck "cost_model", except_error_bind]
    · simp only [collectTechCustomModels, customModelTypes, List.foldlM_cons,
        List.foldlM_nil, g1, g2, g3, hfin]
      cases hp : cfg.performance_model with
      | none =>
        cases hq : cfg.cost_model with
        | none => simp [except_ok_bind, hcheck "financial_model", except_error_bind]
        | some e₂ =>
          rw [hq] at hb2
          simp [checkModelEntry_benign pe pdir supported tn "cost_model" e₂ hb2,
            except_ok_bind, hcheck "financial_model", except_error_bind]
      | some e₁ =>
        rw [hp] at hb1
        cases hq : cfg.cost_model with
        | none =>
          simp [checkModelEntry_benign pe pdir supported tn "performance_model" e₁ hb1,
            except_ok_bind, hcheck "financial_model", except_error_bind]
        | some e₂ =>
          rw [hq] at hb2
          simp [checkModelEntry_benign pe pdir supported tn "performance_model" e₁ hb1,
            checkModelEntry_benign pe pdir supported tn "cost_model" e₂ hb2,
            except_ok_bind, hcheck "financial_model", except_error_bind]
  refine ⟨hcheck, collectCustomModels_head_error pe pdir supported tn cfg rest _ hfold,
    h2Init_collect_error pe pdir supported ((tn, cfg) :: rest) tis rts hf _
      (collectCustomModels_head_error pe pdir supported tn cfg rest _ hfold)⟩

theorem builtin_name_collision_raises_witness :
    (∀ mt, checkModelEntry (fun _ => true) "."
      ["pem_electrolyzer_performance", "basic_electrolyzer_cost"] "electrolyzer" mt
      ⟨some "basic_electrolyzer_cost", none, some "./custom.py", none⟩
      = Except.error
          (PyError.valueError (collisionMsg (some "basic_electrolyzer_cost")))) ∧
    collectCustomModels (fun _ => true) "."
      ["pem_electrolyzer_performance", "basic_electrolyzer_cost"]
      [("electrolyzer",
        ⟨some ⟨some "pem_electrolyzer_performance", none, none, none⟩,
          some ⟨some "basic_electrolyzer_cost", none, some "./custom.py", none⟩,
          none, none⟩)]
      = Except.error
          (PyError.valueError (collisionMsg (some "basic_electrolyzer_cost"))) ∧
    h2IntegrateInit (fun _ => true) "."
      ["pem_electrolyzer_performance", "basic_electrolyzer_cost"]
      [("electrolyzer",
        ⟨some ⟨some "pem_electrolyzer_performance", none, none, none⟩,
          some ⟨some "basic_electrolyzer_cost", none, some "./custom.py", none⟩,
          none, none⟩)]
      [] [] false
      = Except.error
          (PyError.valueError (collisionMsg (some "basic_electrolyzer_cost"))) :=
  builtin_name_collision_raises (fun _ => true) "."
    ["pem_electrolyzer_performance", "basic_electrolyzer_cost"]
    "electrolyzer" "basic_electrolyzer_cost"
    ⟨some "basic_electrolyzer_cost", none, some "./custom.py", none⟩
    ⟨some ⟨some "pem_electrolyzer_performance", none, none, none⟩,
      some ⟨some "basic_electrolyzer_cost", none, some "./custom.py", none⟩,
      none, none⟩
    [] [] [] false rfl rfl (Or.inr (by simp))
    (Or.inr (Or.inl ⟨⟨"pem_electrolyzer_performance", rfl, rfl, rfl, rfl⟩, rfl⟩))

/-- C5: For a technology naming a model that is neither supported nor `None`:
omitting (or leaving falsy) `model_class_name` or `model_location` makes the
`collect_custom_models` check raise a `ValueError` naming the technology and
model type, and giving both while the resolved `model_location` path does not
exist makes it raise a `FileNotFoundError`; with such a technology first in
the configuration either error surfaces from the `H2IntegrateModel`
constructor, i.e. at model-construction time. -/
theorem custom_model_validation_raises
    (pe : String → Bool) (pdir : String) (supported : List String)
    (tn mt m₁ m₂ c l : String) (e₁ e₂ : ModelEntry)
    (tis rts : List (List String)) (hf : Bool)
    (hm₁ : e₁.model = some m₁) (hmem₁ : supported.contains m₁ = false)
    (hmiss : truthyOptStr e₁.model_class_name = false ∨
      truthyOptStr e₁.model_location = false)
    (hm₂ : e₂.model = some m₂) (hmem₂ : supported.contains m₂ = false)
    (hc : e₂.model_class_name = some c) (hcne : c ≠ "")
    (hl : e₂.model_location = some l) (hlne : l ≠ "")
    (hpath : pe (pdir ++ "/" ++ l) = false) :
    checkModelEntry pe pdir supported tn mt e₁
      = Except.error (PyError.valueError (missingMsg tn mt)) ∧
    checkModelEntry pe pdir supported tn mt e₂
      = Except.error (PyError.fileNotFoundError (fnfMsg (pdir ++ "/" ++ l))) ∧
    h2IntegrateInit pe pdir supported [(tn, ⟨some e₁, none, none, none⟩)] tis rts hf
      = Except.error (PyError.valueError (missingMsg tn "performance_model")) ∧
    h2IntegrateInit pe pdir supported [(tn, ⟨some e₂, none, none, none⟩)] tis rts hf
      = Except.error (PyError.fileNotFoundError (fnfMsg (pdir ++ "/" ++ l))) := by
  have hnotmem₁ : m₁ ∉ supported := by simpa using hmem₁
  have hnotmem₂ : m₂ ∉ supported := by simpa using hmem₂
  have hcheck₁ : ∀ mt₀, checkModelEntry pe pdir supported tn mt₀ e₁
      = Except.error (PyError.valueError (missingMsg tn mt₀)) := by
    intro mt₀
    unfold checkModelEntry
    rw [hm₁]
    rcases hmiss with h | h <;> simp [hnotmem₁, h]
  have hcheck₂ : ∀ mt₀, checkModelEntry pe pdir supported tn mt₀ e₂
      = Except.error (PyError.fileNotFoundError (fnfMsg (pdir ++ "/" ++ l))) := by
    intro mt₀
    unfold checkModelEntry
    rw [hm₂]
    simp [hnotmem₂, hc, hl, hcne, hlne, truthyOptStr, pyStrOpt, hpath]
  refine ⟨hcheck₁ mt, hcheck₂ mt, ?_, ?_⟩
  · exact h2Init_collect_error pe pdir supported _ tis rts hf _
      (collectCustomModels_head_error pe pdir supported tn _ [] _
        (collectTech_perf_error pe pdir supported tn _ e₁ _ rfl (hcheck₁ _)))
  · exact h2Init_collect_error pe pdir supported _ tis rts hf _
      (collectCustomModels_head_error pe pdir supported tn _ [] _
        (collectTech_perf_error pe pdir supported tn _ e₂ _ rfl (hcheck₂ _)))

theorem custom_model_validation_raises_witness :
    checkModelEntry (fun _ => false) "dir" [] "tech1" "cost_model"
      ⟨some "custom1", none, none, none⟩
      = Except.error (PyError.valueError (missingMsg "tech1" "cost_model")) ∧
    checkModelEntry (fun _ => false) "dir" [] "tech1" "cost_model"
      ⟨some "custom2", some "MyClass", some "models/my.py", none⟩
      = Except.error
          (PyError.fileNotFoundError (fnfMsg ("dir" ++ "/" ++ "models/my.py"))) ∧
    h2IntegrateInit (fun _ => false) "dir" []
      [("tech1", ⟨some ⟨some "custom1", none, none, none⟩, none, none, none⟩)] [] [] true
      = Except.error (PyError.valueError (missingMsg "tech1" "performance_model")) ∧
    h2IntegrateInit (fun _ => false) "dir" []
      [("tech1", ⟨some ⟨some "custom2", some "MyClass", some "models/my.py", none⟩,
        none, none, none⟩)] [] [] true
      = Except.error
          (PyError.fileNotFoundError (fnfMsg ("dir" ++ "/" ++ "models/my.py"))) :=
  custom_model_validation_raises (fun _ => false) "dir" [] "tech1" "cost_model"
    "custom1" "custom2" "MyClass" "models/my.py"
    ⟨some "custom1", none, none, none⟩
    ⟨some "custom2", some "MyClass", some "models/my.py", none⟩
    [] [] true rfl rfl (Or.inl rfl) rfl rfl rfl (by decide) rfl (by decide) rfl

/-- C7: A non-feedstock technology (name not containing `feedstocks`) whose
configuration lacks a `performance_model` entry makes
`create_technology_models` raise the exception requiring
`performance_model`; with such a technology first in the configuration the
error also surfaces from the `H2IntegrateModel` constructor whenever
`collect_custom_models` succeeds, i.e. at model-construction time.  (Lacking
`performance_model`, such a technology can never take the combined
performance-and-cost path, whose guard requires a truthy performance model
name.) -/
theorem missing_performance_model_raises
    (supported : List String) (tn : String) (cfg : TechConfig)
    (rest : List (String × TechConfig))
    (hnf : strContains tn "feedstocks" = false)
    (hperf : cfg.performance_model = none) :
    createTechModelsForTech supported tn cfg
      = Except.error
          (PyError.exception "Model definition requires \x27performance_model\x27.") ∧
    createTechnologyModels supported ((tn, cfg) :: rest)
      = Except.error
          (PyError.exception "Model definition requires \x27performance_model\x27.") ∧
    (∀ (pe : String → Bool) (pdir : String) (sup₀ : List String)
        (tis rts : List (List String)) (hf : Bool),
      collectCustomModels pe pdir sup₀ ((tn, cfg) :: rest) = Except.ok supported →
      h2IntegrateInit pe pdir sup₀ ((tn, cfg) :: rest) tis rts hf
        = Except.error
            (PyError.exception "Model definition requires \x27performance_model\x27.")) := by
  have h1 : cfg.getModelType "performance_model" = none := hperf
  have hstd : createTechStandard supported tn cfg
      = Except.error
          (PyError.exception "Model definition requires \x27performance_model\x27.") := by
    simp [createTechStandard, standardModelTypes, List.foldlM_cons, h1,
      except_error_bind]
  have hmain : createTechModelsForTech supported tn cfg
      = Except.error
          (PyError.exception "Model definition requires \x27performance_model\x27.") := by
    simp [createTechModelsForTech, hnf, hperf, hstd]
  have hlist : createTechnologyModels supported ((tn, cfg) :: rest)
      = Except.error
          (PyError.exception "Model definition requires \x27performance_model\x27.") :=
    createTechnologyModels_head_error supported tn cfg rest _ hmain
  refine ⟨hmain, hlist, ?_⟩
  intro pe pdir sup₀ tis rts hf hcollect
  simp [h2IntegrateInit, hcollect, except_ok_bind, hlist, except_error_bind]

theorem missing_performance_model_raises_witness :
    createTechModelsForTech ["pipe"] "wind" ⟨none, none, none, none⟩
      = Except.error
          (PyError.exception "Model definition requires \x27performance_model\x27.") ∧
    createTechnologyModels ["pipe"] [("wind", ⟨none, none, none, none⟩)]
      = Except.error
          (PyError.exception "Model definition requires \x27performance_model\x27.") ∧
    (∀ (pe : String → Bool) (pdir : String) (sup₀ : List String)
        (tis rts : List (List String)) (hf : Bool),
      collectCustomModels pe pdir sup₀ [("wind", ⟨none, none, none, none⟩)]
        = Except.ok ["pipe"] →
      h2IntegrateInit pe pdir sup₀ [("wind", ⟨none, none, none, none⟩)] tis rts hf
        = Except.error
            (PyError.exception "Model definition requires \x27performance_model\x27.")) :=
  missing_performance_model_raises ["pipe"] "wind" ⟨none, none, none, none⟩ []
    (by decide) rfl

/-- The number of `plant.connect` calls the interconnection loop makes for a
list of valid entries: two per four-entry connection, one per three-entry
connection. -/
def interconnectionCount : List (List String) → Nat
  | [] => 0
  | c :: rest => (if c.length = 4 then 2 else 1) + interconnectionCount rest

theorem processInterconnections_bad_length (supported : List String)
    (counts : List (String × Nat)) (c : List String) (rest : List (List String))
    (h3 : c.length ≠ 3) (h4 : c.length ≠ 4) :
    processInterconnections supported counts (c :: rest)
      = Except.error (PyError.valueError (invalidConnMsg c)) :=
  match c, h3, h4 with
  | [], _, _ => rfl
  | [_], _, _ => rfl
  | [_, _], _, _ => rfl
  | [_, _, _], h3, _ => (h3 rfl).elim
  | [_, _, _, _], _, h4 => (h4 rfl).elim
  | _ :: _ :: _ :: _ :: _ :: _, _, _ => rfl

theorem processResourceConnections_bad_length (c : List String)
    (rest : List (List String)) (h3 : c.length ≠ 3) :
    processResourceConnections (c :: rest)
      = Except.error (PyError.valueError (invalidResourceConnMsg c)) :=
  match c, h3 with
  | [], _ => rfl
  | [_], _ => rfl
  | [_, _], _ => rfl
  | [_, _, _], h3 => (h3 rfl).elim
  | _ :: _ :: _ :: _ :: _, _ => rfl

theorem processInterconnections_ok (supported : List String)
    (tis : List (List String)) :
    (∀ c ∈ tis, c.length = 3 ∨ c.length = 4) →
    (∀ c ∈ tis, c.length = 4 → supported.contains (c.getD 3 "") = true) →
    ∀ counts, ∃ cs, processInterconnections supported counts tis = Except.ok cs ∧
      cs.length = interconnectionCount tis := by
  induction tis with
  | nil => exact fun _ _ counts => ⟨[], rfl, rfl⟩
  | cons c rest ih =>
    intro hlen htt counts
    have hlr := fun d hd => hlen d (List.mem_cons_of_mem _ hd)
    have htr := fun d hd => htt d (List.mem_cons_of_mem _ hd)
    rcases hlen c (List.mem_cons_self _ _) with h3 | h4
    · obtain ⟨a, b, p, rfl⟩ : ∃ a b p, c = [a, b, p] := by
        match c, h3 with
        | [a, b, p], _ => exact ⟨a, b, p, rfl⟩
      obtain ⟨cs, hcs, hl2⟩ := ih hlr htr counts
      refine ⟨(a ++ "." ++ p, b ++ "." ++ p) :: cs, ?_, ?_⟩
      · simp [processInterconnections, hcs, Except.map]
      · simp [interconnectionCount, hl2]; omega
    · obtain ⟨a, b, i, t, rfl⟩ : ∃ a b i t, c = [a, b, i, t] := by
        match c, h4 with
        | [a, b, i, t], _ => exact ⟨a, b, i, t, rfl⟩
      have hct : supported.contains t = true := htt _ (List.mem_cons_self _ _) rfl
      have hmem : t ∈ supported := by simpa using hct
      by_cases hcomb : strContains b "combiner" = true
      · obtain ⟨cs, hcs, hl2⟩ := ih hlr htr
          ((b, (match counts.lookup b with | some k => k + 1 | none => 1)) :: counts)
        refine ⟨(a ++ "." ++ i ++ "_out",
            (a ++ "_to_" ++ b ++ "_" ++ t) ++ "." ++ i ++ "_in") ::
          ((a ++ "_to_" ++ b ++ "_" ++ t) ++ "." ++ i ++ "_out",
            b ++ ".electricity_in" ++
              toString (match counts.lookup b with | some k => k + 1 | none => 1)) ::
          cs, ?_, ?_⟩
        · simp [processInterconnections, hct, hmem, hcomb, hcs, Except.map, ite_self]
        · simp [interconnectionCount, hl2]; omega
      · obtain ⟨cs, hcs, hl2⟩ := ih hlr htr counts
        refine ⟨(a ++ "." ++ i ++ "_out",
            (a ++ "_to_" ++ b ++ "_" ++ t) ++ "." ++ i ++ "_in") ::
          ((a ++ "_to_" ++ b ++ "_" ++ t) ++ "." ++ i ++ "_out",
            b ++ "." ++ i ++ "_in") :: cs, ?_, ?_⟩
        · simp [processInterconnections, hct, hmem, hcomb, hcs, Except.map, ite_self]
        · simp [interconnectionCount, hl2]; omega

theorem processResourceConnections_ok (rts : List (List String)) :
    (∀ c ∈ rts, c.length = 3) →
    ∃ cs, processResourceConnections rts = Except.ok cs ∧ cs.length = rts.length := by
  induction rts with
  | nil => exact fun _ => ⟨[], rfl, rfl⟩
  | cons c rest ih =>
    intro hr
    obtain ⟨a, b, p, rfl⟩ : ∃ a b p, c = [a, b, p] := by
      match c, hr c (List.mem_cons_self _ _) with
      | [a, b, p], _ => exact ⟨a, b, p, rfl⟩
    obtain ⟨cs, hcs, hl⟩ := ih (fun d hd => hr d (List.mem_cons_of_mem _ hd))
    exact ⟨(a ++ "." ++ p, b ++ "." ++ p) :: cs,
      by simp [processResourceConnections, hcs, Except.map], by simp [hl]⟩

/-- C6: `connect_technologies` raises the invalid-connection `ValueError`
whenever it reaches a `technology_interconnections` entry whose length is
neither 3 nor 4, and the invalid-resource-connection `ValueError` whenever it
reaches a `resource_to_tech_connections` entry whose length is not 3; when
every entry has a valid length (and every transport type is supported) no
such error is raised and each entry is wired as connections: two per
four-entry interconnection, one per three-entry interconnection, and one per
resource connection. -/
theorem connection_length_validation
    (supported : List String) (tis rts : List (List String))
    (hlen : ∀ c ∈ tis, c.length = 3 ∨ c.length = 4)
    (htt : ∀ c ∈ tis, c.length = 4 → supported.contains (c.getD 3 "") = true)
    (hr : ∀ c ∈ rts, c.length = 3) :
    (∃ cs, connectTechnologies supported tis rts = Except.ok cs ∧
      cs.length = interconnectionCount tis + rts.length) ∧
    (∀ (counts : List (String × Nat)) (c : List String) (rest : List (List String)),
      c.length ≠ 3 → c.length ≠ 4 →
      processInterconnections supported counts (c :: rest)
        = Except.error (PyError.valueError (invalidConnMsg c))) ∧
    (∀ (c : List String) (rest : List (List String)), c.length ≠ 3 →
      processResourceConnections (c :: rest)
        = Except.error (PyError.valueError (invalidResourceConnMsg c))) := by
  refine ⟨?_, processInterconnections_bad_length supported,
    processResourceConnections_bad_length⟩
  obtain ⟨cs₁, h₁, l₁⟩ := processInterconnections_ok supported tis hlen htt []
  obtain ⟨cs₂, h₂, l₂⟩ := processResourceConnections_ok rts hr
  exact ⟨cs₁ ++ cs₂, by simp [connectTechnologies, h₁, h₂, except_ok_bind],
    by simp [l₁, l₂]⟩

theorem connection_length_validation_witness :
    (∃ cs, connectTechnologies ["cable"]
        [["wind", "elec_combiner", "electricity", "cable"], ["wind", "ctrl", "x"]]
        [["river", "hydro", "flow"]] = Except.ok cs ∧
      cs.length = interconnectionCount
        [["wind", "elec_combiner", "electricity", "cable"], ["wind", "ctrl", "x"]] +
        [["river", "hydro", "flow"]].length) ∧
    (∀ (counts : List (String × Nat)) (c : List String) (rest : List (List String)),
      c.length ≠ 3 → c.length ≠ 4 →
      processInterconnections ["cable"] counts (c :: rest)
        = Except.error (PyError.valueError (invalidConnMsg c))) ∧
    (∀ (c : List String) (rest : List (List String)), c.length ≠ 3 →
      processResourceConnections (c :: rest)
        = Except.error (PyError.valueError (invalidResourceConnMsg c))) :=
  connection_length_validation ["cable"]
    [["wind", "elec_combiner", "electricity", "cable"], ["wind", "ctrl", "x"]]
    [["river", "hydro", "flow"]]
    (by decide) (by decide) (by decide)

theorem mem_ite_nil (a x : String) (c : Prop) [Decidable c] :
    (a ∈ if c then [x] else []) ↔ c ∧ a = x := by
  by_cases h : c <;> simp [h]

theorem contains_steel_eq (ts : List (String × TechConfig)) :
    (commodityTypes ts).contains "steel" = hasTech ts "steel" := by
  cases h : hasTech ts "steel" <;> simp [commodityTypes, h, mem_ite_nil]

theorem contains_methanol_eq (ts : List (String × TechConfig)) :
    (commodityTypes ts).contains "methanol" = hasTech ts "methanol" := by
  cases h : hasTech ts "methanol" <;> simp [commodityTypes, h, mem_ite_nil]

theorem financialGroupAdded_iff (ts : List (String × TechConfig)) :
    financialGroupAdded ts = true ↔
      (commodityTypes ts ≠ [] ∧ hasTech ts "steel" = false ∧
        hasTech ts "methanol" = false ∧ hasTech ts "geoh2" = false) := by
  unfold financialGroupAdded
  rw [contains_steel_eq, contains_methanol_eq]
  cases h1 : hasTech ts "steel" <;> cases h2 : hasTech ts "methanol" <;>
    cases h3 : hasTech ts "geoh2" <;> simp [h1, h2, h3, List.isEmpty_iff]

/-- Membership of a technology in one of the financial groups. -/
def inGroups (groups : List (String × List (String × TechConfig)))
    (g : String) (tc : String × TechConfig) : Prop :=
  ∃ ts, (g, ts) ∈ groups ∧ tc ∈ ts

theorem inGroups_cons (a : String) (ts : List (String × TechConfig))
    (rest : List (String × List (String × TechConfig))) (g : String)
    (tc : String × TechConfig) :
    inGroups ((a, ts) :: rest) g tc ↔ (g = a ∧ tc ∈ ts) ∨ inGroups rest g tc := by
  constructor
  · rintro ⟨ts₀, hmem, htc⟩
    rcases List.mem_cons.1 hmem with h | h
    · injection h with h₁ h₂
      subst h₁
      subst h₂
      exact Or.inl ⟨rfl, htc⟩
    · exact Or.inr ⟨ts₀, h, htc⟩
  · rintro (⟨rfl, htc⟩ | ⟨ts₀, hmem, htc⟩)
    · exact ⟨ts, List.mem_cons_self _ _, htc⟩
    · exact ⟨ts₀, List.mem_cons_of_mem _ hmem, htc⟩

theorem inGroups_addToGroup (groups : List (String × List (String × TechConfig)))
    (gid : String) (tc : String × TechConfig) (g : String)
    (tc₂ : String × TechConfig) :
    inGroups (addToGroup groups gid tc) g tc₂ ↔
      inGroups groups g tc₂ ∨ (g = gid ∧ tc₂ = tc) := by
  induction groups with
  | nil =>
    rw [show addToGroup [] gid tc = [(gid, [tc])] from rfl, inGroups_cons]
    simp [inGroups]
  | cons p rest ih =>
    obtain ⟨pg, pts⟩ := p
    by_cases hpg : pg = gid
    · subst hpg
      rw [show addToGroup ((pg, pts) :: rest) pg tc = (pg, pts ++ [tc]) :: rest from
        by simp [addToGroup]]
      rw [inGroups_cons, inGroups_cons]
      constructor
      · rintro (⟨rfl, htc⟩ | h)
        · rcases List.mem_append.1 htc with h | h
          · exact Or.inl (Or.inl ⟨rfl, h⟩)
          · exact Or.inr ⟨rfl, List.mem_singleton.1 h⟩
        · exact Or.inl (Or.inr h)
      · rintro ((⟨rfl, htc⟩ | h) | ⟨rfl, rfl⟩)
        · exact Or.inl ⟨rfl, List.mem_append.2 (Or.inl htc)⟩
        · exact Or.inr h
        · exact Or.inl ⟨rfl, List.mem_append.2 (Or.inr (List.mem_singleton.2 rfl))⟩
    · rw [show addToGroup ((pg, pts) :: rest) gid tc
          = (pg, pts) :: addToGroup rest gid tc from by simp [addToGroup, hpg]]
      rw [inGroups_cons, inGroups_cons, ih]
      tauto

theorem inGroups_foldl_declared (techs : List (String × TechConfig)) :
    ∀ (acc : List (String × List (String × TechConfig))) (g : String)
      (tc : String × TechConfig),
      inGroups (techs.foldl declaredGroupsStep acc) g tc ↔
        inGroups acc g tc ∨
          (tc ∈ techs ∧ tc.2.financial_model.bind (fun e => e.group) = some g) := by
  induction techs with
  | nil => simp
  | cons hd tl ih =>
    intro acc g tc
    rw [List.foldl_cons]
    rw [ih]
    cases hgrp : hd.2.financial_model.bind (fun e => e.group) with
    | none =>
      rw [show declaredGroupsStep acc hd = acc from by simp [declaredGroupsStep, hgrp]]
      constructor
      · rintro (hin | ⟨htl, hg⟩)
        · exact Or.inl hin
        · exact Or.inr ⟨List.mem_cons_of_mem _ htl, hg⟩
      · rintro (hin | ⟨hmem, hg⟩)
        · exact Or.inl hin
        · rcases List.mem_cons.1 hmem with rfl | htl
          · rw [hgrp] at hg
            exact absurd hg (by simp)
          · exact Or.inr ⟨htl, hg⟩
    | some gid =>
      rw [show declaredGroupsStep acc hd = addToGroup acc gid hd from
        by simp [declaredGroupsStep, hgrp]]
      rw [inGroups_addToGroup]
      constructor
      · rintro ((hin | ⟨rfl, rfl⟩) | ⟨htl, hg⟩)
        · exact Or.inl hin
        · exact Or.inr ⟨List.mem_cons_self _ _, hgrp⟩
        · exact Or.inr ⟨List.mem_cons_of_mem _ htl, hg⟩
      · rintro (hin | ⟨hmem, hg⟩)
        · exact Or.inl (Or.inl hin)
        · rcases List.mem_cons.1 hmem with rfl | htl
          · rw [hgrp] at hg
            injection hg with h
            exact Or.inl (Or.inr ⟨h.symm, rfl⟩)
          · exact Or.inr ⟨htl, hg⟩

theorem inGroups_declaredGroups (techs : List (String × TechConfig)) (g : String)
    (tc : String × TechConfig) :
    inGroups (declaredGroups techs) g tc ↔
      (tc ∈ techs ∧ tc.2.financial_model.bind (fun e => e.group) = some g) := by
  rw [declaredGroups, inGroups_foldl_declared]
  simp [inGroups]

theorem declaredGroups_eq_nil (techs : List (String × TechConfig))
    (h : ∀ tc ∈ techs, tc.2.financial_model.bind (fun e => e.group) = none) :
    declaredGroups techs = [] := by
  have haux : ∀ (l : List (String × TechConfig)),
      (∀ tc ∈ l, tc.2.financial_model.bind (fun e => e.group) = none) →
      ∀ acc, l.foldl declaredGroupsStep acc = acc := by
    intro l
    induction l with
    | nil => intro _ _; rfl
    | cons hd tl ih =>
      intro hl acc
      rw [List.foldl_cons,
        show declaredGroupsStep acc hd = acc from
          by simp [declaredGroupsStep, hl hd (List.mem_cons_self _ _)]]
      exact ih (fun tc htc => hl tc (List.mem_cons_of_mem _ htc)) acc
  exact haux techs h []

/-- C9: `create_financial_model` partitions technologies into financial groups
keyed by the `financial_model` `group` id: every technology that declares a
group id lands in exactly that one group; when no technology declares any
group id all technologies form a single group keyed `"1"`; and a
`financials_group` subsystem is added exactly for the groups whose derived
commodity list is non-empty and that contain none of the `steel`, `methanol`
or `geoh2` technologies. -/
theorem financial_grouping (techs : List (String × TechConfig)) :
    (∀ tc ∈ techs, ∀ g, tc.2.financial_model.bind (fun e => e.group) = some g →
      inGroups (financialGroupsOf techs) g tc ∧
      (∀ g₂, inGroups (financialGroupsOf techs) g₂ tc → g₂ = g)) ∧
    ((∀ tc ∈ techs, tc.2.financial_model.bind (fun e => e.group) = none) →
      financialGroupsOf techs = [("1", techs)]) ∧
    (∀ s ∈ (createFinancialModel true techs).2,
      ∃ g ∈ (createFinancialModel true techs).1,
        s = "financials_group_" ++ g.1 ∧ commodityTypes g.2 ≠ [] ∧
        hasTech g.2 "steel" = false ∧ hasTech g.2 "methanol" = false ∧
        hasTech g.2 "geoh2" = false) ∧
    (∀ g ∈ (createFinancialModel true techs).1,
      commodityTypes g.2 ≠ [] → hasTech g.2 "steel" = false →
      hasTech g.2 "methanol" = false → hasTech g.2 "geoh2" = false →
      "financials_group_" ++ g.1 ∈ (createFinancialModel true techs).2) := by
  have hc : createFinancialModel true techs
      = (financialGroupsOf techs,
        ((financialGroupsOf techs).filter (fun g => financialGroupAdded g.2)).map
          (fun g => "financials_group_" ++ g.1)) := rfl
  refine ⟨?_, ?_, ?_, ?_⟩
  · intro tc htc g hg
    have hdecl : inGroups (declaredGroups techs) g tc :=
      (inGroups_declaredGroups techs g tc).2 ⟨htc, hg⟩
    have hne : declaredGroups techs ≠ [] := by
      intro h
      rw [h] at hdecl
      obtain ⟨ts, hmem, _⟩ := hdecl
      exact absurd hmem (List.not_mem_nil _)
    have hfg : financialGroupsOf techs = declaredGroups techs := by
      unfold financialGroupsOf
      rw [if_neg (by simp [List.isEmpty_iff, hne])]
    constructor
    · rw [hfg]
      exact hdecl
    · intro g₂ hg₂
      rw [hfg] at hg₂
      have h₂ := (inGroups_declaredGroups techs g₂ tc).1 hg₂
      rw [hg] at h₂
      injection h₂.2 with h
      exact h.symm
  · intro h
    unfold financialGroupsOf
    rw [declaredGroups_eq_nil techs h]
    rfl
  · intro s hs
    rw [hc] at hs
    obtain ⟨g, hgmem, rfl⟩ := List.mem_map.1 hs
    obtain ⟨hg₁, hg₂⟩ := List.mem_filter.1 hgmem
    obtain ⟨hne, hs₁, hs₂, hs₃⟩ := (financialGroupAdded_iff g.2).1 hg₂
    exact ⟨g, by rw [hc]; exact hg₁, rfl, hne, hs₁, hs₂, hs₃⟩
  · intro g hg h₁ h₂ h₃ h₄
    rw [hc] at hg ⊢
    exact List.mem_map.2
      ⟨g, List.mem_filter.2 ⟨hg, (financialGroupAdded_iff g.2).2 ⟨h₁, h₂, h₃, h₄⟩⟩, rfl⟩

theorem financial_grouping_witness :
    (∀ tc ∈ [("electrolyzer",
        (⟨none, none, some ⟨none, none, none, some "g7"⟩, none⟩ : TechConfig))],
      ∀ g, tc.2.financial_model.bind (fun e => e.group) = some g →
      inGroups (financialGroupsOf [("electrolyzer",
        ⟨none, none, some ⟨none, none, none, some "g7"⟩, none⟩)]) g tc ∧
      (∀ g₂, inGroups (financialGroupsOf [("electrolyzer",
        ⟨none, none, some ⟨none, none, none, some "g7"⟩, none⟩)]) g₂ tc → g₂ = g)) ∧
    ((∀ tc ∈ [("electrolyzer",
        (⟨none, none, some ⟨none, none, none, some "g7"⟩, none⟩ : TechConfig))],
      tc.2.financial_model.bind (fun e => e.group) = none) →
      financialGroupsOf [("electrolyzer",
        ⟨none, none, some ⟨none, none, none, some "g7"⟩, none⟩)]
        = [("1", [("electrolyzer",
            ⟨none, none, some ⟨none, none, none, some "g7"⟩, none⟩)])]) ∧
    (∀ s ∈ (createFinancialModel true [("electrolyzer",
        ⟨none, none, some ⟨none, none, none, some "g7"⟩, none⟩)]).2,
      ∃ g ∈ (createFinancialModel true [("electrolyzer",
        ⟨none, none, some ⟨none, none, none, some "g7"⟩, none⟩)]).1,
        s = "financials_group_" ++ g.1 ∧ commodityTypes g.2 ≠ [] ∧
        hasTech g.2 "steel" = false ∧ hasTech g.2 "methanol" = false ∧
        hasTech g.2 "geoh2" = false) ∧
    (∀ g ∈ (createFinancialModel true [("electrolyzer",
        ⟨none, none, some ⟨none, none, none, some "g7"⟩, none⟩)]).1,
      commodityTypes g.2 ≠ [] → hasTech g.2 "steel" = false →
      hasTech g.2 "methanol" = false → hasTech g.2 "geoh2" = false →
      "financials_group_" ++ g.1 ∈ (createFinancialModel true [("electrolyzer",
        ⟨none, none, some ⟨none, none, none, some "g7"⟩, none⟩)]).2) :=
  financial_grouping
    [("electrolyzer", ⟨none, none, some ⟨none, none, none, some "g7"⟩, none⟩)]

theorem nh3FromInputs_length_eq (r1 r2 r3 : ℚ) :
    ∀ (hs ns es : List ℚ), ns.length = hs.length → es.length = hs.length →
      (nh3FromInputs r1 r2 r3 hs ns es).length = hs.length
  | [], [], [], _, _ => rfl
  | [], _ :: _, _, hn, _ => absurd hn (by simp)
  | [], [], _ :: _, _, he => absurd he (by simp)
  | _ :: _, [], _, hn, _ => absurd hn (by simp)
  | _ :: _, _ :: _, [], _, he => absurd he (by simp)
  | _ :: hs, _ :: ns, _ :: es, hn, he => by
    simp only [nh3FromInputs, List.length_cons]
    rw [nh3FromInputs_length_eq r1 r2 r3 hs ns es (by simpa using hn)
      (by simpa using he)]

theorem nh3FromInputs_getD (r1 r2 r3 : ℚ) :
    ∀ (hs ns es : List ℚ) (i : ℕ), i < hs.length → i < ns.length →
      i < es.length →
      (nh3FromInputs r1 r2 r3 hs ns es).getD i 0
        = min (min (hs.getD i 0 / r1) (ns.getD i 0 / r2)) (es.getD i 0 / r3)
  | _ :: _, _ :: _, _ :: _, 0, _, _, _ => by simp [nh3FromInputs]
  | _ :: hs, _ :: ns, _ :: es, i + 1, hh, hn, he => by
    simp only [nh3FromInputs, List.getD_cons_succ]
    exact nh3FromInputs_getD r1 r2 r3 hs ns es i (by simpa using hh)
      (by simpa using hn) (by simpa using he)
  | [], _, _, _, hh, _, _ => absurd hh (by simp)
  | _ :: _, [], _, _, _, hn, _ => absurd hn (by simp)
  | _ :: _, _ :: _, [], _, _, _, he => absurd he (by simp)

theorem getD_zipWith_of_lt (f : ℚ → ℚ → ℚ) :
    ∀ (as bs : List ℚ) (i : ℕ), i < as.length → i < bs.length →
      (List.zipWith f as bs).getD i 0 = f (as.getD i 0) (bs.getD i 0)
  | _ :: _, _ :: _, 0, _, _ => by simp
  | _ :: as, _ :: bs, i + 1, ha, hb => by
    simp only [List.zipWith_cons_cons, List.getD_cons_succ]
    exact getD_zipWith_of_lt f as bs i (by simpa using ha) (by simpa using hb)
  | [], _, _, ha, _ => absurd ha (by simp)
  | _ :: _, [], _, _, hb => absurd hb (by simp)

theorem nh3FromInputs_nonneg (r1 r2 r3 : ℚ) (hr1 : 0 < r1) (hr2 : 0 < r2)
    (hr3 : 0 < r3) :
    ∀ (hs ns es : List ℚ), (∀ x ∈ hs, 0 ≤ x) → (∀ x ∈ ns, 0 ≤ x) →
      (∀ x ∈ es, 0 ≤ x) → ∀ y ∈ nh3FromInputs r1 r2 r3 hs ns es, 0 ≤ y
  | h :: hs, n :: ns, e :: es, hh, hn, he, y, hy => by
    simp only [nh3FromInputs] at hy
    rcases List.mem_cons.1 hy with rfl | hy
    · exact le_min (le_min
        (div_nonneg (hh h (List.mem_cons_self _ _)) hr1.le)
        (div_nonneg (hn n (List.mem_cons_self _ _)) hr2.le))
        (div_nonneg (he e (List.mem_cons_self _ _)) hr3.le)
    · exact nh3FromInputs_nonneg r1 r2 r3 hr1 hr2 hr3 hs ns es
        (fun x hx => hh x (List.mem_cons_of_mem _ hx))
        (fun x hx => hn x (List.mem_cons_of_mem _ hx))
        (fun x hx => he x (List.mem_cons_of_mem _ hx)) y hy
  | [], _, _, _, _, _, y, hy => absurd hy (by simp [nh3FromInputs])
  | _ :: _, [], _, _, _, _, y, hy => absurd hy (by simp [nh3FromInputs])
  | _ :: _, _ :: _, [], _, _, _, y, hy => absurd hy (by simp [nh3FromInputs])

theorem hydrogen_leftover_nonneg (r1 r2 r3 : ℚ) (hr1 : 0 < r1) :
    ∀ (hs ns es : List ℚ), (∀ x ∈ hs, 0 ≤ x) →
      ∀ y ∈ List.zipWith (fun a p => a - p * r1) hs
        (nh3FromInputs r1 r2 r3 hs ns es), 0 ≤ y
  | h :: hs, n :: ns, e :: es, hh, y, hy => by
    simp only [nh3FromInputs, List.zipWith_cons_cons] at hy
    rcases List.mem_cons.1 hy with rfl | hy
    · have hp : min (min (h / r1) (n / r2)) (e / r3) ≤ h / r1 :=
        le_trans (min_le_left _ _) (min_le_left _ _)
      exact sub_nonneg.2 ((le_div_iff₀ hr1).1 hp)
    · exact hydrogen_leftover_nonneg r1 r2 r3 hr1 hs ns es
        (fun x hx => hh x (List.mem_cons_of_mem _ hx)) y hy
  | [], _, _, _, y, hy => absurd hy (by simp)
  | _ :: _, [], _, _, y, hy => absurd hy (by simp [nh3FromInputs])
  | _ :: _, _ :: _, [], _, y, hy => absurd hy (by simp [nh3FromInputs])

theorem nitrogen_leftover_nonneg (r1 r2 r3 : ℚ) (hr2 : 0 < r2) :
    ∀ (hs ns es : List ℚ), (∀ x ∈ ns, 0 ≤ x) →
      ∀ y ∈ List.zipWith (fun a p => a - p * r2) ns
        (nh3FromInputs r1 r2 r3 hs ns es), 0 ≤ y
  | h :: hs, n :: ns, e :: es, hn, y, hy => by
    simp only [nh3FromInputs, List.zipWith_cons_cons] at hy
    rcases List.mem_cons.1 hy with rfl | hy
    · have hp : min (min (h / r1) (n / r2)) (e / r3) ≤ n / r2 :=
        le_trans (min_le_left _ _) (min_le_right _ _)
      exact sub_nonneg.2 ((le_div_iff₀ hr2).1 hp)
    · exact nitrogen_leftover_nonneg r1 r2 r3 hr2 hs ns es
        (fun x hx => hn x (List.mem_cons_of_mem _ hx)) y hy
  | [], ns, _, hn, y, hy => absurd hy (by simp [nh3FromInputs])
  | _ :: _, [], _, _, y, hy => absurd hy (by simp)
  | _ :: _, _ :: _, [], _, y, hy => absurd hy (by simp [nh3FromInputs])

theorem heat_leftover_nonneg (r1 r2 r3 : ℚ) (hr3 : 0 < r3) :
    ∀ (hs ns es : List ℚ), (∀ x ∈ es, 0 ≤ x) →
      ∀ y ∈ List.zipWith (fun a p => a - p * r3) es
        (nh3FromInputs r1 r2 r3 hs ns es), 0 ≤ y
  | h :: hs, n :: ns, e :: es, he, y, hy => by
    simp only [nh3FromInputs, List.zipWith_cons_cons] at hy
    rcases List.mem_cons.1 hy with rfl | hy
    · have hp : min (min (h / r1) (n / r2)) (e / r3) ≤ e / r3 :=
        min_le_right _ _
      exact sub_nonneg.2 ((le_div_iff₀ hr3).1 hp)
    · exact heat_leftover_nonneg r1 r2 r3 hr3 hs ns es
        (fun x hx => he x (List.mem_cons_of_mem _ hx)) y hy
  | [], _, es, he, y, hy => absurd hy (by simp [nh3FromInputs])
  | _ :: _, [], es, he, y, hy => absurd hy (by simp [nh3FromInputs])
  | _ :: _, _ :: _, [], _, y, hy => absurd hy (by simp)

/-- C10: For each hourly timestep, `AmmoniaSynLoopPerformanceModel.compute`
sets `ammonia_out` to the minimum of `hydrogen_in / hydrogen_conversion_rate`,
`nitrogen_in / nitrogen_conversion_rate` and `electricity_in / energy_demand`;
the leftovers satisfy `hydrogen_out = hydrogen_in - ammonia_out * h2_rate`,
`nitrogen_out = nitrogen_in - ammonia_out * n2_rate` and
`heat_out = electricity_in - ammonia_out * energy_demand`; all outputs are
nonnegative for nonnegative inputs and positive rates; and
`total_ammonia_produced` is the sum of `ammonia_out` over all timesteps. -/
theorem ammonia_synloop_compute_spec
    (energy_demand n2_rate h2_rate : ℚ) (h2_in n2_in elec_in : List ℚ)
    (hed : 0 < energy_demand) (hn2 : 0 < n2_rate) (hh2 : 0 < h2_rate)
    (hlen_n : n2_in.length = h2_in.length) (hlen_e : elec_in.length = h2_in.length)
    (hpos_h : ∀ x ∈ h2_in, 0 ≤ x) (hpos_n : ∀ x ∈ n2_in, 0 ≤ x)
    (hpos_e : ∀ x ∈ elec_in, 0 ≤ x) :
    (∀ i, i < h2_in.length →
      ((ammoniaSynLoopCompute energy_demand n2_rate h2_rate h2_in n2_in
          elec_in).ammonia_out.getD i 0
        = min (min (h2_in.getD i 0 / h2_rate) (n2_in.getD i 0 / n2_rate))
            (elec_in.getD i 0 / energy_demand) ∧
      (ammoniaSynLoopCompute energy_demand n2_rate h2_rate h2_in n2_in
          elec_in).hydrogen_out.getD i 0
        = h2_in.getD i 0 -
          (ammoniaSynLoopCompute energy_demand n2_rate h2_rate h2_in n2_in
            elec_in).ammonia_out.getD i 0 * h2_rate ∧
      (ammoniaSynLoopCompute energy_demand n2_rate h2_rate h2_in n2_in
          elec_in).nitrogen_out.getD i 0
        = n2_in.getD i 0 -
          (ammoniaSynLoopCompute energy_demand n2_rate h2_rate h2_in n2_in
            elec_in).ammonia_out.getD i 0 * n2_rate ∧
      (ammoniaSynLoopCompute energy_demand n2_rate h2_rate h2_in n2_in
          elec_in).heat_out.getD i 0
        = elec_in.getD i 0 -
          (ammoniaSynLoopCompute energy_demand n2_rate h2_rate h2_in n2_in
            elec_in).ammonia_out.getD i 0 * energy_demand)) ∧
    (∀ y ∈ (ammoniaSynLoopCompute energy_demand n2_rate h2_rate h2_in n2_in
        elec_in).ammonia_out, 0 ≤ y) ∧
    (∀ y ∈ (ammoniaSynLoopCompute energy_demand n2_rate h2_rate h2_in n2_in
        elec_in).hydrogen_out, 0 ≤ y) ∧
    (∀ y ∈ (ammoniaSynLoopCompute energy_demand n2_rate h2_rate h2_in n2_in
        elec_in).nitrogen_out, 0 ≤ y) ∧
    (∀ y ∈ (ammoniaSynLoopCompute energy_demand n2_rate h2_rate h2_in n2_in
        elec_in).heat_out, 0 ≤ y) ∧
    (ammoniaSynLoopCompute energy_demand n2_rate h2_rate h2_in n2_in
        elec_in).total_ammonia_produced
      = (ammoniaSynLoopCompute energy_demand n2_rate h2_rate h2_in n2_in
        elec_in).ammonia_out.sum := by
  have hnlen : (nh3FromInputs h2_rate n2_rate energy_demand h2_in n2_in
      elec_in).length = h2_in.length :=
    nh3FromInputs_length_eq h2_rate n2_rate energy_demand h2_in n2_in elec_in
      hlen_n hlen_e
  refine ⟨?_, ?_, ?_, ?_, ?_, rfl⟩
  · intro i hi
    have hin : i < n2_in.length := hlen_n ▸ hi
    have hie : i < elec_in.length := hlen_e ▸ hi
    have hinh : i < (nh3FromInputs h2_rate n2_rate energy_demand h2_in n2_in
        elec_in).length := hnlen ▸ hi
    refine ⟨nh3FromInputs_getD h2_rate n2_rate energy_demand h2_in n2_in
      elec_in i hi hin hie, ?_, ?_, ?_⟩
    · exact getD_zipWith_of_lt (fun a p => a - p * h2_rate) h2_in _ i hi hinh
    · exact getD_zipWith_of_lt (fun a p => a - p * n2_rate) n2_in _ i hin hinh
    · exact getD_zipWith_of_lt (fun a p => a - p * energy_demand) elec_in _ i
        hie hinh
  · exact nh3FromInputs_nonneg h2_rate n2_rate energy_demand hh2 hn2 hed
      h2_in n2_in elec_in hpos_h hpos_n hpos_e
  · exact hydrogen_leftover_nonneg h2_rate n2_rate energy_demand hh2
      h2_in n2_in elec_in hpos_h
  · exact nitrogen_leftover_nonneg h2_rate n2_rate energy_demand hn2
      h2_in n2_in elec_in hpos_n
  · exact heat_leftover_nonneg h2_rate n2_rate energy_demand hed
      h2_in n2_in elec_in hpos_e

theorem ammonia_synloop_compute_spec_witness :
    (∀ i, i < [(8 : ℚ)].length →
      ((ammoniaSynLoopCompute 2 3 4 [8] [9] [10]).ammonia_out.getD i 0
        = min (min ([(8 : ℚ)].getD i 0 / 4) ([(9 : ℚ)].getD i 0 / 3))
            ([(10 : ℚ)].getD i 0 / 2) ∧
      (ammoniaSynLoopCompute 2 3 4 [8] [9] [10]).hydrogen_out.getD i 0
        = [(8 : ℚ)].getD i 0 -
          (ammoniaSynLoopCompute 2 3 4 [8] [9] [10]).ammonia_out.getD i 0 * 4 ∧
      (ammoniaSynLoopCompute 2 3 4 [8] [9] [10]).nitrogen_out.getD i 0
        = [(9 : ℚ)].getD i 0 -
          (ammoniaSynLoopCompute 2 3 4 [8] [9] [10]).ammonia_out.getD i 0 * 3 ∧
      (ammoniaSynLoopCompute 2 3 4 [8] [9] [10]).heat_out.getD i 0
        = [(10 : ℚ)].getD i 0 -
          (ammoniaSynLoopCompute 2 3 4 [8] [9] [10]).ammonia_out.getD i 0 * 2)) ∧
    (∀ y ∈ (ammoniaSynLoopCompute 2 3 4 [8] [9] [10]).ammonia_out, 0 ≤ y) ∧
    (∀ y ∈ (ammoniaSynLoopCompute 2 3 4 [8] [9] [10]).hydrogen_out, 0 ≤ y) ∧
    (∀ y ∈ (ammoniaSynLoopCompute 2 3 4 [8] [9] [10]).nitrogen_out, 0 ≤ y) ∧
    (∀ y ∈ (ammoniaSynLoopCompute 2 3 4 [8] [9] [10]).heat_out, 0 ≤ y) ∧
    (ammoniaSynLoopCompute 2 3 4 [8] [9] [10]).total_ammonia_produced
      = (ammoniaSynLoopCompute 2 3 4 [8] [9] [10]).ammonia_out.sum :=
  ammonia_synloop_compute_spec 2 3 4 [8] [9] [10]
    (by norm_num) (by norm_num) (by norm_num) rfl rfl
    (by norm_num) (by norm_num) (by norm_num)
